import Mathlib

/-!
# POITracker — verification of the position-management frontend

Shallow embedding of the POITracker frontend (TypeScript) in Lean 4.
Numbers are modelled as exact rationals (`ℚ`); JavaScript's
`Math.floor` / `Math.round` become `Int.floor` on `ℚ`.  Fallible lookups
become `Option`.  Components that live only in the backend (the
execution guard, the TP1 position watcher and the partial-close
endpoint's reporting) are modelled from the specification and marked as
such in their doc comments.
-/

namespace POITracker

/-- Trade direction, `'buy' | 'sell'` in the source. -/
inductive Direction where
  | buy
  | sell
deriving DecidableEq, Repr

/-- Position snapshot returned by the backend
(`PositionInfo` in `types`, consumed by `PostOrderPanel`). -/
structure PositionInfo where
  position_ticket : Nat
  symbol : String
  direction : Direction
  volume : ℚ
  price_open : ℚ
  sl : Option ℚ
  tp : Option ℚ
  digits : Nat
  pip_in_price : ℚ
  volume_min : ℚ
  volume_step : ℚ
deriving DecidableEq, Repr

/-- Function `Math.round` of JavaScript: round half toward positive infinity. -/
def jsRound (q : ℚ) : ℤ := ⌊q + 1/2⌋

/-- Memo `tp1Price` from `PostOrderPanel.tsx`: TP1 level derived from the
entry price, `entry ± tp1Pips * pip_in_price`, rounded to the
position's price digits via `Math.round(raw * factor) / factor`. -/
def tp1Price (pos : PositionInfo) (tp1Pips : ℚ) : ℚ :=
  let delta := tp1Pips * pos.pip_in_price
  let raw := if pos.direction = .buy then pos.price_open + delta else pos.price_open - delta
  let factor : ℚ := 10 ^ pos.digits
  (jsRound (raw * factor) : ℚ) / factor

/-- Result record of `tp1Precheck` in `PostOrderPanel.tsx`
(`{ requested, normalized, remaining, min, step, blocked }`). -/
structure Precheck where
  requested : ℚ
  normalized : ℚ
  remaining : ℚ
  min : ℚ
  step : ℚ
  blocked : Bool
deriving DecidableEq, Repr

/-- The epsilon used by the volume normalizer (`1e-12`). -/
def veps : ℚ := 1 / 10 ^ 12

/-- Memo `tp1Precheck` from `PostOrderPanel.tsx`: client-side volume
normalization of the requested partial-close amount against the broker's
`volume_min` / `volume_step`, with the blocking conditions. -/
def tp1Precheck (pos : PositionInfo) (partialPercentLocal : ℚ) : Precheck :=
  let requested := pos.volume * (partialPercentLocal / 100)
  let step := pos.volume_step
  let min := pos.volume_min
  let steps : ℤ := if 0 < step then ⌊(requested + veps) / step⌋ else 0
  let normalized : ℚ := if 0 < step then (steps : ℚ) * step else 0
  let remaining := pos.volume - normalized
  let wouldCloseFull : Bool := decide (partialPercentLocal < 100 ∧ pos.volume ≤ normalized)
  let remainingBelowMin : Bool := decide (0 < remaining ∧ remaining < min)
  let blocked : Bool :=
    decide (normalized ≤ 0) || decide (normalized < min) || remainingBelowMin || wouldCloseFull
  { requested := requested, normalized := normalized, remaining := remaining,
    min := min, step := step, blocked := blocked }

/-- Modelled from the spec: `ExecutionGuard.authorize` lives in the backend,
which is not under `src/`.  Both authorization flags must independently be
true. -/
def authorize (ui_armed backend_execution_enabled : Bool) : Bool :=
  ui_armed && backend_execution_enabled

/-- Structured failure object returned by a mutating backend endpoint
(`success=false`, `error`), as described in the spec's error-handling design. -/
structure MutatingResult where
  success : Bool
  error : Option String
deriving DecidableEq, Repr

/-- Modelled from the spec: every order-mutating backend endpoint (not under
`src/`) evaluates the guard immediately before acting; when the guard denies,
it fails closed with a surfaced authorization failure instead of silently
doing nothing.  `op` is the result the operation would produce if allowed. -/
def runMutating (ui_armed backend_execution_enabled : Bool)
    (op : MutatingResult) : MutatingResult :=
  if authorize ui_armed backend_execution_enabled then op
  else { success := false, error := some "authorization denied" }

/-- Symbol preset from settings, with the fields `ExecuteTradeButton` reads. -/
structure SymbolPreset where
  symbol : String
  pip_size : ℚ
deriving DecidableEq, Repr

/-- Pip-size lookup in `ExecuteTradeButton.handleExecute`
(`settings.symbol_presets.find(p => p.symbol === symbol)?.pip_size || 0.0001`);
the JavaScript `||` also replaces a zero pip size by the forex default. -/
def effectivePipSize (symbol_presets : List SymbolPreset) (symbol : String) : ℚ :=
  match symbol_presets.find? (fun p => p.symbol == symbol) with
  | none => 1 / 10000
  | some p => if p.pip_size = 0 then 1 / 10000 else p.pip_size

/-- Order request for MT5 execution (`OrderRequest` in `types`). -/
structure OrderRequest where
  symbol : String
  direction : Direction
  volume : ℚ
  price : Option ℚ
  sl_price : ℚ
  tp_price : Option ℚ
  ui_armed : Bool
deriving DecidableEq, Repr

/-- Handler `ExecuteTradeButton.handleExecute`: returns the order request the
handler submits to the broker endpoint, or `none` when it returns without
sending one (`if (!armed) return;`). -/
def handleExecute (symbol_presets : List SymbolPreset) (symbol : String)
    (direction : Direction) (volume entryPrice stopPips : ℚ)
    (pendingOrder armed : Bool) : Option OrderRequest :=
  if !armed then none
  else
    let pipSize := effectivePipSize symbol_presets symbol
    let slPrice :=
      if direction = .buy then entryPrice - stopPips * pipSize
      else entryPrice + stopPips * pipSize
    some { symbol := symbol, direction := direction, volume := volume,
           price := if pendingOrder then some entryPrice else none,
           sl_price := slPrice,
           tp_price := none,
           ui_armed := armed }

/-- Wire body of a partial-close call (`PartialCloseRequest` in `types`). -/
structure PartialCloseRequest where
  position_ticket : Option Nat
  percent : Option ℚ
  ticket : Option Nat
  volume : Option ℚ
  ui_armed : Bool
deriving DecidableEq, Repr

/-- Function `partialClose` from `api/mt5.ts`: posts the request body to
`/mt5/partial-close` and returns the response data unchanged.  The HTTP
transport (`apiClient.post` followed by `.data`) is abstracted as `post`. -/
def partialClose {ρ : Type} (post : String → PartialCloseRequest → ρ)
    (request : PartialCloseRequest) : ρ :=
  post "/mt5/partial-close" request

/-- Function `closePosition` from `api/mt5.ts`: posts
`{ position_ticket, percent: 100, ui_armed }` to `/mt5/partial-close` and
returns the response data unchanged. -/
def closePosition {ρ : Type} (post : String → PartialCloseRequest → ρ)
    (positionTicket : Nat) (ui_armed : Bool) : ρ :=
  post "/mt5/partial-close"
    { position_ticket := some positionTicket, percent := some 100,
      ticket := none, volume := none, ui_armed := ui_armed }

/-- Raw open position from `GET /mt5/positions` (`OpenPositionInfo` in
`types`), with the fields the `Calculator` reconciliation tick reads. -/
structure OpenPositionInfo where
  ticket : Nat
  symbol : String
  type : Nat
  volume : ℚ
  price_open : ℚ
  magic : Nat
  time : Option ℤ
deriving DecidableEq, Repr

/-- Managed trade card state (`ManagedTrade` in `Calculator`). -/
structure ManagedTrade where
  id : String
  symbol : String
  direction : Direction
  order_ticket : Nat
  position_ticket : Option Nat
  created_at : ℤ
deriving DecidableEq, Repr

/-- Strategy tag stamped on this system's orders (`const MAGIC = 123456`). -/
def MAGIC : Nat := 123456

/-- Mapping `directionToPositionType` in `Calculator`: buy ↦ 0, sell ↦ 1. -/
def directionToPositionType : Direction → Nat
  | .buy => 0
  | .sell => 1

/-- Sort key used by the tick's comparator `(b.time ?? 0) - (a.time ?? 0)`. -/
def timeKey (p : OpenPositionInfo) : ℤ := p.time.getD 0

/-- Stable insertion into a list sorted by descending `timeKey`. -/
def insertByTimeDesc (p : OpenPositionInfo) :
    List OpenPositionInfo → List OpenPositionInfo
  | [] => [p]
  | q :: qs =>
    if timeKey p < timeKey q then q :: insertByTimeDesc p qs else p :: q :: qs

/-- Stable sort by descending `time`, the JavaScript
`matches.sort((a, b) => (b.time ?? 0) - (a.time ?? 0))`. -/
def sortByTimeDesc : List OpenPositionInfo → List OpenPositionInfo
  | [] => []
  | p :: ps => insertByTimeDesc p (sortByTimeDesc ps)

/-- Body of the `Calculator` reconciliation tick's fold over the previous
trade list (`for (const t of prev) { ... }` in `setTrades`), carrying the
`claimedTickets` set.  An unresolved pending fill older than 60 s is removed;
a resolved trade is kept only while its ticket is still open; a pending fill
is resolved to the newest matching position whose ticket is not yet claimed. -/
def tickGo (now : ℤ) (positions : List OpenPositionInfo) (byTicket : List Nat) :
    List Nat → List ManagedTrade → List ManagedTrade
  | _, [] => []
  | claimed, t :: rest =>
    match t.position_ticket with
    | some pt =>
      if byTicket.contains pt then t :: tickGo now positions byTicket claimed rest
      else tickGo now positions byTicket claimed rest
    | none =>
      if 60000 < now - t.created_at then tickGo now positions byTicket claimed rest
      else
        let matched := sortByTimeDesc (positions.filter
          (fun p => p.magic == MAGIC && p.symbol == t.symbol
            && p.type == directionToPositionType t.direction))
        match matched.find? (fun m => !(claimed.contains m.ticket)) with
        | some m =>
          { t with position_ticket := some m.ticket }
            :: tickGo now positions byTicket (m.ticket :: claimed) rest
        | none => t :: tickGo now positions byTicket claimed rest

/-- One reconciliation tick of the `Calculator`'s managed-trade list against
the current open-positions snapshot (the `tick` function's `setTrades`
updater in `Calculator`). -/
def tick (now : ℤ) (positions : List OpenPositionInfo)
    (prev : List ManagedTrade) : List ManagedTrade :=
  let byTicket := positions.map (·.ticket)
  let claimed :=
    (prev.filter (fun x => x.position_ticket.isSome)).filterMap (·.position_ticket)
  tickGo now positions byTicket claimed prev

/-- Non-null position tickets referenced by a trade list. -/
def resolvedTickets (trades : List ManagedTrade) : List Nat :=
  trades.filterMap (·.position_ticket)

/-- One poll step of the watcher-status effect in `PostOrderPanel`: an event
is reacted to only when it is present, its timestamp is a number, and the
timestamp strictly exceeds the stored last-seen value
(`evt.timestamp > lastSeenTsRef.current`), in which case the ref is updated.
Returns the new last-seen value and the timestamps notified, in order. -/
def pollRun (lastSeen : ℤ) : List (Option ℤ) → ℤ × List ℤ
  | [] => (lastSeen, [])
  | none :: es => pollRun lastSeen es
  | some ts :: es =>
    if lastSeen < ts then
      let r := pollRun ts es
      (r.1, ts :: r.2)
    else pollRun lastSeen es

/-- Modelled from the spec: the backend watcher (not under `src/`) emits
events of one kind with timestamps from a monotonic counter; `emitRun c n`
is the timestamp sequence of `n` successive emissions after counter `c`. -/
def emitRun (counter : ℕ) : ℕ → List ℕ
  | 0 => []
  | n + 1 => (counter + 1) :: emitRun (counter + 1) n

/-- A form field's string value as `validateForm` observes it: the string's
truthiness and its `parseFloat` result (`none` when `parseFloat` gives NaN).
An empty string is falsy and parses to NaN; a non-empty string either parses
to a number or to NaN. -/
inductive FieldVal where
  | emptyStr
  | nanStr
  | numStr (v : ℚ)
deriving DecidableEq, Repr

/-- JavaScript truthiness of the field's string (`!formData.field`). -/
def FieldVal.truthy : FieldVal → Bool
  | .emptyStr => false
  | .nanStr => true
  | .numStr _ => true

/-- Result of `parseFloat` on the field (`none` encodes NaN). -/
def FieldVal.parsed : FieldVal → Option ℚ
  | .emptyStr => none
  | .nanStr => none
  | .numStr v => some v

/-- JavaScript comparison `parseFloat(x) <= 0`; false when the parse is NaN. -/
def FieldVal.le0 : FieldVal → Bool
  | .numStr v => decide (v ≤ 0)
  | _ => false

/-- JavaScript comparison `parseFloat(x) > 100`; false when the parse is NaN. -/
def FieldVal.gt100 : FieldVal → Bool
  | .numStr v => decide (100 < v)
  | _ => false

/-- The calculator form fields that `validateForm` in `InputForm.tsx` reads. -/
structure FormState where
  account_balance : FieldVal
  risk_percent : FieldVal
  entry_price : FieldVal
  stop_pips : FieldVal
  pip_value_per_1_lot : FieldVal
deriving DecidableEq, Repr

/-- Function `validateForm` from `InputForm.tsx`: returns `true` exactly when
no field error is recorded.  `activeSymbol` is `settings.active_symbol`
(`none` for a falsy value). -/
def validateForm (activeSymbol : Option String) (f : FormState) : Bool :=
  let symbolErr := activeSymbol.isNone
  let balanceErr := !f.account_balance.truthy || f.account_balance.le0
  let riskErr := !f.risk_percent.truthy || f.risk_percent.le0 || f.risk_percent.gt100
  let entryErr := !f.entry_price.truthy || f.entry_price.le0
  let stopErr := !f.stop_pips.truthy || f.stop_pips.le0
  let pipErr := !f.pip_value_per_1_lot.truthy || f.pip_value_per_1_lot.le0
  !(symbolErr || balanceErr || riskErr || entryErr || stopErr || pipErr)

/-- Handler `handleSubmit` from `InputForm.tsx`: `onCalculate(formData)` is
invoked exactly when `validateForm()` returns true; the result is the form
data passed to `onCalculate`, or `none`. -/
def handleSubmit (activeSymbol : Option String) (f : FormState) : Option FormState :=
  if validateForm activeSymbol f then some f else none

/-- Reasons a partial close can be blocked, as the spec distinguishes them. -/
inductive BlockReason where
  | normalizedZero
  | belowMin
  | remainingBelowMin
  | wouldCloseFull
deriving DecidableEq, Repr

/-- Modelled from the spec: the backend partial-close endpoint (not under
`src/`) normalizes the requested volume exactly like the client precheck and
reports a structured `blocked_reason`, distinguishing a too-small normalized
amount from a dust remainder below the broker minimum and from a sub-100 %
request that would consume the whole position. -/
def partialCloseReason (owned volume_min volume_step percent : ℚ) :
    Option BlockReason :=
  let requested := owned * (percent / 100)
  let steps : ℤ :=
    if 0 < volume_step then ⌊(requested + veps) / volume_step⌋ else 0
  let normalized : ℚ := if 0 < volume_step then (steps : ℚ) * volume_step else 0
  let remaining := owned - normalized
  if normalized ≤ 0 then some .normalizedZero
  else if normalized < volume_min then some .belowMin
  else if 0 < remaining ∧ remaining < volume_min then some .remainingBelowMin
  else if percent < 100 ∧ owned ≤ normalized then some .wouldCloseFull
  else none

/-- The TP1 price as the spec words it: `entry_price + tp1_pips*pip_in_price`
for a buy and `entry_price − tp1_pips*pip_in_price` for a sell, rounded to
the position's price digits. -/
def tp1PriceSpec (pos : PositionInfo) (tp1Pips : ℚ) : ℚ :=
  match pos.direction with
  | .buy =>
    (jsRound ((pos.price_open + tp1Pips * pos.pip_in_price) * 10 ^ pos.digits) : ℚ)
      / 10 ^ pos.digits
  | .sell =>
    (jsRound ((pos.price_open - tp1Pips * pos.pip_in_price) * 10 ^ pos.digits) : ℚ)
      / 10 ^ pos.digits

/-- Modelled from the spec: the backend PositionWatcher's TP1 trigger test
(the watcher is not under `src/`; the panel displays the same rule): a buy
triggers when the bid reaches the TP1 price, a sell when the ask falls to
it. -/
def tp1Triggered (dir : Direction) (bid ask tp1 : ℚ) : Bool :=
  match dir with
  | .buy => decide (tp1 ≤ bid)
  | .sell => decide (ask ≤ tp1)

/-- Spec scenario 4/5 position: volume 0.10, broker min 0.01, step 0.01. -/
def scenarioPosition : PositionInfo :=
  { position_ticket := 1001, symbol := "XAUUSD", direction := .buy, volume := 1/10,
    price_open := 2000, sl := none, tp := none, digits := 2, pip_in_price := 1/10,
    volume_min := 1/100, volume_step := 1/100 }

/-- Position with degenerate broker constraints: min and step of `1e-13`,
below the normalizer's epsilon `1e-12`. -/
def cexPosition : PositionInfo :=
  { position_ticket := 1002, symbol := "EURUSD", direction := .buy, volume := 1,
    price_open := 1, sl := none, tp := none, digits := 5, pip_in_price := 1/10000,
    volume_min := 1/10^13, volume_step := 1/10^13 }

/-- Position whose 80 % partial close leaves a dust remainder 0.02 below the
broker minimum 0.03. -/
def dustPosition : PositionInfo :=
  { position_ticket := 1003, symbol := "XAUUSD", direction := .buy, volume := 1/10,
    price_open := 2000, sl := none, tp := none, digits := 2, pip_in_price := 1/10,
    volume_min := 3/100, volume_step := 1/100 }

/-- Position so small that a 50 % partial close normalizes up to the whole
volume (volume equal to the broker step of `1e-12`). -/
def tinyPosition : PositionInfo :=
  { position_ticket := 1004, symbol := "EURUSD", direction := .sell, volume := 1/10^12,
    price_open := 1, sl := none, tp := none, digits := 5, pip_in_price := 1/10000,
    volume_min := 1/10^12, volume_step := 1/10^12 }

/-- Form whose balance field is a non-empty string that parses to NaN while
every other field is well-formed. -/
def nanForm : FormState :=
  { account_balance := .nanStr, risk_percent := .numStr 1,
    entry_price := .numStr 2000, stop_pips := .numStr 50,
    pip_value_per_1_lot := .numStr 10 }

/-- Fully well-formed calculator form. -/
def goodForm : FormState :=
  { account_balance := .numStr 10000, risk_percent := .numStr 1,
    entry_price := .numStr 2000, stop_pips := .numStr 50,
    pip_value_per_1_lot := .numStr 10 }

/-- A resolved and a pending managed trade with no duplicate tickets. -/
def tradesW : List ManagedTrade :=
  [ { id := "a", symbol := "EURUSD", direction := .buy, order_ticket := 11,
      position_ticket := some 5, created_at := 0 },
    { id := "b", symbol := "EURUSD", direction := .buy, order_ticket := 12,
      position_ticket := none, created_at := 0 } ]

/-- Open-positions snapshot holding tickets 5 and 7. -/
def positionsW : List OpenPositionInfo :=
  [ { ticket := 5, symbol := "EURUSD", type := 0, volume := 1, price_open := 1,
      magic := 123456, time := some 10 },
    { ticket := 7, symbol := "EURUSD", type := 0, volume := 1, price_open := 1,
      magic := 123456, time := some 20 } ]

/-! ## Theorems -/

/-- C9: `closePosition(t, a)` issues exactly the same request as
`partialClose` with body `{position_ticket: t, percent: 100, ui_armed: a}`
and returns its response unchanged — closing a position entirely is the
100-percent instance of the partial-close operation. -/
theorem closePosition_is_partialClose_100 {ρ : Type}
    (post : String → PartialCloseRequest → ρ) (t : Nat) (a : Bool) :
    closePosition post t a =
      partialClose post
        { position_ticket := some t, percent := some 100,
          ticket := none, volume := none, ui_armed := a } := rfl

/-- C5: the TP1 price is computed from the entry price as
`entry + tp1_pips * pip_in_price` for a buy and
`entry − tp1_pips * pip_in_price` for a sell, rounded to the position's
price digits, and the TP1 trigger condition is `bid ≥ tp1_price` for a buy
and `ask ≤ tp1_price` for a sell. -/
theorem tp1Price_matches_spec_and_trigger :
    (∀ pos tp1Pips, tp1Price pos tp1Pips = tp1PriceSpec pos tp1Pips)
    ∧ (∀ bid ask t, (tp1Triggered .buy bid ask t = true ↔ t ≤ bid)
        ∧ (tp1Triggered .sell bid ask t = true ↔ ask ≤ t)) := by
  constructor
  · intro pos pips
    cases h : pos.direction <;>
      simp [tp1Price, tp1PriceSpec, h]
  · intro bid ask t
    constructor <;> simp [tp1Triggered]

/-- C1: `authorize(ui_armed, backend_execution_enabled)` allows exactly when
both flags are true; any of the other three combinations makes every
order-mutating operation fail closed with a surfaced authorization failure,
and the UI execute handler sends no order request when `armed = false`. -/
theorem execution_gate_denies_unless_both_armed :
    (authorize true true = true ∧ authorize true false = false
      ∧ authorize false true = false ∧ authorize false false = false)
    ∧ (∀ u b op, authorize u b = false →
        runMutating u b op = { success := false, error := some "authorization denied" })
    ∧ (∀ presets symbol dir (volume entry stop : ℚ) pending,
        handleExecute presets symbol dir volume entry stop pending false = none) := by
  refine ⟨⟨rfl, rfl, rfl, rfl⟩, ?_, ?_⟩
  · intro u b op h
    simp [runMutating, h]
  · intro presets symbol dir volume entry stop pending
    rfl

/-- C1 witness: a denied combination produces the authorization failure
object, and a disarmed execute click sends nothing. -/
theorem execution_gate_denies_unless_both_armed_witness :
    runMutating true false { success := true, error := none }
      = { success := false, error := some "authorization denied" }
    ∧ handleExecute [] "XAUUSD" .buy 1 2000 50 false false = none :=
  ⟨execution_gate_denies_unless_both_armed.2.1 true false _ rfl,
   execution_gate_denies_unless_both_armed.2.2 [] "XAUUSD" .buy 1 2000 50 false⟩

/-- C2: the volume normalizer computes
`normalized = ⌊(requested + ε) / step⌋ * step` with `ε = 1e-12`, and the
request is blocked whenever `normalized ≤ 0` or `normalized < volume_min`;
at position volume 0.10, partial percent 5, min 0.01, step 0.01 the
requested 0.005 normalizes to 0 and is blocked. -/
theorem volume_normalizer_floor_and_blocking :
    (∀ pos p, 0 < pos.volume_step →
      (tp1Precheck pos p).requested = pos.volume * (p / 100)
      ∧ (tp1Precheck pos p).normalized
          = ((⌊(pos.volume * (p / 100) + veps) / pos.volume_step⌋ : ℤ) : ℚ)
              * pos.volume_step
      ∧ ((tp1Precheck pos p).normalized ≤ 0 → (tp1Precheck pos p).blocked = true)
      ∧ ((tp1Precheck pos p).normalized < pos.volume_min →
          (tp1Precheck pos p).blocked = true))
    ∧ ((tp1Precheck scenarioPosition 5).requested = 5/1000
      ∧ (tp1Precheck scenarioPosition 5).normalized = 0
      ∧ (tp1Precheck scenarioPosition 5).blocked = true) := by
  constructor
  · intro pos p hstep
    refine ⟨rfl, ?_, ?_, ?_⟩
    · simp only [tp1Precheck, if_pos hstep]
    · intro h
      simp only [tp1Precheck] at h ⊢
      simp only [Bool.or_eq_true, decide_eq_true_eq]
      exact Or.inl (Or.inl (Or.inl h))
    · intro h
      simp only [tp1Precheck] at h ⊢
      simp only [Bool.or_eq_true, decide_eq_true_eq]
      exact Or.inl (Or.inl (Or.inr h))
  · refine ⟨?_, ?_, ?_⟩ <;> norm_num [tp1Precheck, veps, scenarioPosition]

/-- C2 witness: the spec's scenario-5 request is blocked because its
normalized volume is zero. -/
theorem volume_normalizer_floor_and_blocking_witness :
    (tp1Precheck scenarioPosition 5).blocked = true :=
  (volume_normalizer_floor_and_blocking.1 scenarioPosition 5
      (by norm_num [scenarioPosition])).2.2.1
    (le_of_eq volume_normalizer_floor_and_blocking.2.2.1)

/-- C3 counterexample: with owned volume 1, percent 100, min and step 1e-13
(all inside the claim's quantifiers), the request is not blocked yet the
remainder is −1e-12 — neither 0 nor in `[volume_min, owned)`, so the claim
as stated fails. -/
theorem partial_close_remainder_counterexample :
    0 < cexPosition.volume ∧ (0 : ℚ) < 100 ∧ (100 : ℚ) ≤ 100
    ∧ 0 < cexPosition.volume_min ∧ 0 < cexPosition.volume_step
    ∧ (tp1Precheck cexPosition 100).blocked = false
    ∧ (tp1Precheck cexPosition 100).remaining = -(1/10^12)
    ∧ (tp1Precheck cexPosition 100).remaining ≠ 0
    ∧ (tp1Precheck cexPosition 100).remaining < cexPosition.volume_min := by
  norm_num [tp1Precheck, veps, cexPosition]

/-- C3 (amended): for owned volume > 0, percent in (0,100], min > 0 and
step > 0, the normalized partial-close volume never exceeds the owned
amount by more than ε, and whenever the request is not blocked the
remainder lies in `[−ε, 0] ∪ [volume_min, owned)`. -/
theorem partial_close_remainder_in_range (pos : PositionInfo) (p : ℚ)
    (hv : 0 < pos.volume) (hp0 : 0 < p) (hp1 : p ≤ 100)
    (hmin : 0 < pos.volume_min) (hstep : 0 < pos.volume_step) :
    (tp1Precheck pos p).normalized ≤ pos.volume + veps
    ∧ ((tp1Precheck pos p).blocked = false →
        (-veps ≤ (tp1Precheck pos p).remaining ∧ (tp1Precheck pos p).remaining ≤ 0)
        ∨ (pos.volume_min ≤ (tp1Precheck pos p).remaining
            ∧ (tp1Precheck pos p).remaining < pos.volume)) := by
  have hreq : pos.volume * (p / 100) ≤ pos.volume := by
    have h1 : p / 100 ≤ 1 := by linarith
    calc pos.volume * (p / 100) ≤ pos.volume * 1 :=
          mul_le_mul_of_nonneg_left h1 hv.le
      _ = pos.volume := mul_one _
  have hfloor :
      ((⌊(pos.volume * (p / 100) + veps) / pos.volume_step⌋ : ℤ) : ℚ)
          * pos.volume_step
        ≤ pos.volume * (p / 100) + veps := by
    have h1 := Int.floor_le ((pos.volume * (p / 100) + veps) / pos.volume_step)
    have h2 := mul_le_mul_of_nonneg_right h1 hstep.le
    rwa [div_mul_cancel₀ _ (ne_of_gt hstep)] at h2
  simp only [tp1Precheck, if_pos hstep]
  constructor
  · exact le_trans hfloor (by linarith)
  · intro hb
    simp only [Bool.or_eq_false_iff, decide_eq_false_iff_not, not_le, not_lt,
      not_and] at hb
    obtain ⟨⟨⟨hpos, hge⟩, hdust⟩, -⟩ := hb
    rcases le_or_lt
        (pos.volume
          - ((⌊(pos.volume * (p / 100) + veps) / pos.volume_step⌋ : ℤ) : ℚ)
              * pos.volume_step) 0 with hle | hgt
    · exact Or.inl ⟨by linarith [hfloor, hreq], hle⟩
    · exact Or.inr ⟨hdust hgt, by linarith⟩

/-- C3 witness: the spec's scenario-4 request (volume 0.10, percent 50,
min 0.01, step 0.01) satisfies the amended bound. -/
theorem partial_close_remainder_in_range_witness :
    (tp1Precheck scenarioPosition 50).normalized ≤ scenarioPosition.volume + veps :=
  (partial_close_remainder_in_range scenarioPosition 50
      (by norm_num [scenarioPosition]) (by norm_num) (by norm_num)
      (by norm_num [scenarioPosition]) (by norm_num [scenarioPosition])).1

/-- C4: a partial-close request whose remainder lies strictly between 0 and
`volume_min` is blocked, a sub-100 % request whose normalized volume
consumes the whole position is blocked, and (on the spec-modelled backend
reporting) these surface as reasons distinct from the normalized amount
being too small. -/
theorem dust_and_full_close_are_blocked :
    (∀ pos p, 0 < (tp1Precheck pos p).remaining →
        (tp1Precheck pos p).remaining < pos.volume_min →
        (tp1Precheck pos p).blocked = true)
    ∧ (∀ pos p, p < 100 → pos.volume ≤ (tp1Precheck pos p).normalized →
        (tp1Precheck pos p).blocked = true)
    ∧ (∀ pos p, ¬ (tp1Precheck pos p).normalized ≤ 0 →
        ¬ (tp1Precheck pos p).normalized < pos.volume_min →
        0 < (tp1Precheck pos p).remaining →
        (tp1Precheck pos p).remaining < pos.volume_min →
        partialCloseReason pos.volume pos.volume_min pos.volume_step p
          = some BlockReason.remainingBelowMin)
    ∧ (∀ pos p, ¬ (tp1Precheck pos p).normalized ≤ 0 →
        ¬ (tp1Precheck pos p).normalized < pos.volume_min →
        p < 100 → pos.volume ≤ (tp1Precheck pos p).normalized →
        partialCloseReason pos.volume pos.volume_min pos.volume_step p
          = some BlockReason.wouldCloseFull)
    ∧ BlockReason.remainingBelowMin ≠ BlockReason.normalizedZero
    ∧ BlockReason.remainingBelowMin ≠ BlockReason.belowMin
    ∧ BlockReason.wouldCloseFull ≠ BlockReason.normalizedZero
    ∧ BlockReason.wouldCloseFull ≠ BlockReason.belowMin := by
  refine ⟨?_, ?_, ?_, ?_, by decide, by decide, by decide, by decide⟩
  · intro pos p h1 h2
    simp only [tp1Precheck] at h1 h2 ⊢
    simp only [Bool.or_eq_true, decide_eq_true_eq]
    exact Or.inl (Or.inr ⟨h1, h2⟩)
  · intro pos p h1 h2
    simp only [tp1Precheck] at h2 ⊢
    simp only [Bool.or_eq_true, decide_eq_true_eq]
    exact Or.inr ⟨h1, h2⟩
  · intro pos p h1 h2 h3 h4
    simp only [tp1Precheck] at h1 h2 h3 h4
    simp only [partialCloseReason, if_neg h1, if_neg h2, if_pos (And.intro h3 h4)]
  · intro pos p h1 h2 h3 h4
    have hrem : ¬ (0 < (tp1Precheck pos p).remaining
        ∧ (tp1Precheck pos p).remaining < pos.volume_min) := by
      rintro ⟨hgt, -⟩
      simp only [tp1Precheck] at hgt h4
      linarith
    simp only [tp1Precheck] at h1 h2 h4 hrem
    simp only [partialCloseReason, if_neg h1, if_neg h2, if_neg hrem,
      if_pos (And.intro h3 h4)]

/-- C4 witness: an 80 % close of the dust position leaves remainder 0.02
below min 0.03 and is blocked with the dust reason; a 50 % close of the
tiny position normalizes up to the whole volume and is blocked with the
full-close reason. -/
theorem dust_and_full_close_are_blocked_witness :
    (tp1Precheck dustPosition 80).blocked = true
    ∧ partialCloseReason dustPosition.volume dustPosition.volume_min
        dustPosition.volume_step 80 = some BlockReason.remainingBelowMin
    ∧ partialCloseReason tinyPosition.volume tinyPosition.volume_min
        tinyPosition.volume_step 50 = some BlockReason.wouldCloseFull :=
  ⟨dust_and_full_close_are_blocked.1 dustPosition 80
      (by norm_num [tp1Precheck, veps, dustPosition])
      (by norm_num [tp1Precheck, veps, dustPosition]),
   dust_and_full_close_are_blocked.2.2.1 dustPosition 80
      (by norm_num [tp1Precheck, veps, dustPosition])
      (by norm_num [tp1Precheck, veps, dustPosition])
      (by norm_num [tp1Precheck, veps, dustPosition])
      (by norm_num [tp1Precheck, veps, dustPosition]),
   dust_and_full_close_are_blocked.2.2.2.1 tinyPosition 50
      (by norm_num [tp1Precheck, veps, tinyPosition])
      (by norm_num [tp1Precheck, veps, tinyPosition])
      (by norm_num)
      (by norm_num [tp1Precheck, veps, tinyPosition])⟩

/-- Auxiliary invariant of the tick fold: when every resolved ticket of the
remaining previous trades is already claimed and those tickets are
duplicate-free, the fold output's resolved tickets are duplicate-free, and
each is either one of the old resolved tickets or lies outside the claimed
set. -/
theorem tickGo_tickets_nodup (now : ℤ) (positions : List OpenPositionInfo)
    (byTicket : List Nat) (rest : List ManagedTrade) :
    ∀ claimed : List Nat,
      (resolvedTickets rest).Nodup →
      (∀ x ∈ resolvedTickets rest, x ∈ claimed) →
      (resolvedTickets (tickGo now positions byTicket claimed rest)).Nodup
      ∧ ∀ x ∈ resolvedTickets (tickGo now positions byTicket claimed rest),
          x ∈ resolvedTickets rest ∨ x ∉ claimed := by
  induction rest with
  | nil =>
    intro claimed _ _
    refine ⟨by simp [tickGo, resolvedTickets], ?_⟩
    intro x hx
    simp [tickGo, resolvedTickets] at hx
  | cons t rest ih =>
    intro claimed hnd hsub
    simp only [resolvedTickets, List.filterMap_cons] at hnd hsub ⊢
    cases ht : t.position_ticket with
    | some pt =>
      simp only [ht] at hnd hsub
      rw [List.nodup_cons] at hnd
      obtain ⟨hpt, hnd'⟩ := hnd
      have hptc : pt ∈ claimed := hsub pt (List.mem_cons_self pt _)
      have hsub' : ∀ x ∈ List.filterMap (·.position_ticket) rest, x ∈ claimed :=
        fun x hx => hsub x (List.mem_cons_of_mem _ hx)
      have hsubR : ∀ x ∈ resolvedTickets rest, x ∈ claimed := by
        simpa [resolvedTickets] using hsub'
      have hndR : (resolvedTickets rest).Nodup := by
        simpa [resolvedTickets] using hnd'
      obtain ⟨ihnd, ihsub⟩ := ih claimed hndR hsubR
      simp only [resolvedTickets] at ihnd ihsub
      simp only [tickGo, ht]
      by_cases hc : byTicket.contains pt = true
      · rw [if_pos hc]
        simp only [List.filterMap_cons, ht]
        constructor
        · rw [List.nodup_cons]
          refine ⟨?_, ihnd⟩
          intro hmem
          rcases ihsub pt hmem with h | h
          · exact hpt h
          · exact h hptc
        · intro x hx
          rcases List.mem_cons.mp hx with rfl | hx
          · exact Or.inl (List.mem_cons_self _ _)
          · rcases ihsub x hx with h | h
            · exact Or.inl (List.mem_cons_of_mem _ h)
            · exact Or.inr h
      · rw [if_neg hc]
        refine ⟨ihnd, ?_⟩
        intro x hx
        rcases ihsub x hx with h | h
        · exact Or.inl (List.mem_cons_of_mem _ h)
        · exact Or.inr h
    | none =>
      simp only [ht] at hnd hsub
      have hndR : (resolvedTickets rest).Nodup := by
        simpa [resolvedTickets] using hnd
      have hsubR : ∀ x ∈ resolvedTickets rest, x ∈ claimed := by
        simpa [resolvedTickets] using hsub
      simp only [tickGo, ht]
      by_cases htime : 60000 < now - t.created_at
      · rw [if_pos htime]
        obtain ⟨ihnd, ihsub⟩ := ih claimed hndR hsubR
        simp only [resolvedTickets] at ihnd ihsub
        exact ⟨ihnd, ihsub⟩
      · rw [if_neg htime]
        cases hf : (sortByTimeDesc (positions.filter
            (fun p => p.magic == MAGIC && p.symbol == t.symbol
              && p.type == directionToPositionType t.direction))).find?
            (fun m => !(claimed.contains m.ticket)) with
        | some m =>
          have hm : m.ticket ∉ claimed := by
            have := List.find?_some hf
            simpa using this
          have hsub'' : ∀ x ∈ resolvedTickets rest, x ∈ m.ticket :: claimed :=
            fun x hx => List.mem_cons_of_mem _ (hsubR x hx)
          obtain ⟨ihnd, ihsub⟩ := ih (m.ticket :: claimed) hndR hsub''
          simp only [resolvedTickets] at ihnd ihsub
          simp only [hf, List.filterMap_cons]
          constructor
          · rw [List.nodup_cons]
            refine ⟨?_, ihnd⟩
            intro hmem
            rcases ihsub m.ticket hmem with h | h
            · exact hm (hsubR m.ticket (by simpa [resolvedTickets] using h))
            · exact h (List.mem_cons_self _ _)
          · intro x hx
            rcases List.mem_cons.mp hx with rfl | hx
            · exact Or.inr hm
            · rcases ihsub x hx with h | h
              · exact Or.inl (by simpa [resolvedTickets] using h)
              · exact Or.inr fun hxc => h (List.mem_cons_of_mem _ hxc)
        | none =>
          obtain ⟨ihnd, ihsub⟩ := ih claimed hndR hsubR
          simp only [resolvedTickets] at ihnd ihsub
          simp only [hf, List.filterMap_cons, ht]
          exact ⟨ihnd, ihsub⟩

/-- C6: every reconciliation tick of the managed-trade list against an
open-positions snapshot preserves the invariant that no two managed trades
reference the same non-null position ticket. -/
theorem tick_preserves_ticket_uniqueness (now : ℤ)
    (positions : List OpenPositionInfo) (prev : List ManagedTrade)
    (h : (resolvedTickets prev).Nodup) :
    (resolvedTickets (tick now positions prev)).Nodup := by
  have hsub : ∀ x ∈ resolvedTickets prev,
      x ∈ (prev.filter (fun x => x.position_ticket.isSome)).filterMap
            (·.position_ticket) := by
    intro x hx
    simp only [resolvedTickets, List.mem_filterMap] at hx
    obtain ⟨t, ht, hxt⟩ := hx
    exact List.mem_filterMap.mpr ⟨t, List.mem_filter.mpr ⟨ht, by simp [hxt]⟩, hxt⟩
  simp only [tick]
  exact (tickGo_tickets_nodup now positions (positions.map (·.ticket)) prev _ h hsub).1

/-- C6 witness: a concrete tick over a resolved trade (ticket 5) and a
pending trade, against a snapshot holding tickets 5 and 7, keeps the
resolved tickets duplicate-free. -/
theorem tick_preserves_ticket_uniqueness_witness :
    (resolvedTickets (tick 1000 positionsW tradesW)).Nodup :=
  tick_preserves_ticket_uniqueness 1000 positionsW tradesW (by decide)

/-- Every timestamp notified by a poll run strictly exceeds the initial
last-seen value. -/
theorem pollRun_notified_gt (es : List (Option ℤ)) :
    ∀ last : ℤ, ∀ x ∈ (pollRun last es).2, last < x := by
  induction es with
  | nil => intro last x hx; simp [pollRun] at hx
  | cons e es ih =>
    intro last x hx
    cases e with
    | none => exact ih last x (by simpa [pollRun] using hx)
    | some ts =>
      by_cases h : last < ts
      · rw [pollRun, if_pos h] at hx
        rcases List.mem_cons.mp hx with rfl | hx
        · exact h
        · exact lt_trans h (ih ts x hx)
      · rw [pollRun, if_neg h] at hx
        exact ih last x hx

/-- Modelled emitter timestamps exceed the starting counter. -/
theorem emitRun_gt (n : ℕ) : ∀ c : ℕ, ∀ x ∈ emitRun c n, c < x := by
  induction n with
  | zero => intro c x hx; simp [emitRun] at hx
  | succ n ih =>
    intro c x hx
    rw [emitRun] at hx
    rcases List.mem_cons.mp hx with rfl | hx
    · exact Nat.lt_succ_self c
    · exact lt_trans (Nat.lt_succ_self c) (ih (c + 1) x hx)

/-- C7: event timestamps of one kind are strictly increasing (modelled
counter emitter), the poller's stored last-seen timestamp never decreases
across any sequence of polls, and the notified timestamps are strictly
increasing — so each distinct event is notified at most once. -/
theorem event_poller_monotone_and_once :
    (∀ c n, (emitRun c n).Pairwise (· < ·))
    ∧ (∀ (last : ℤ) (es : List (Option ℤ)), last ≤ (pollRun last es).1)
    ∧ (∀ (last : ℤ) (es : List (Option ℤ)), ((pollRun last es).2).Pairwise (· < ·))
    ∧ (∀ (last : ℤ) (es : List (Option ℤ)) (t : ℤ),
        ((pollRun last es).2).count t ≤ 1) := by
  have hemit : ∀ n c, (emitRun c n).Pairwise (· < ·) := by
    intro n
    induction n with
    | zero => intro c; simp [emitRun]
    | succ n ih =>
      intro c
      rw [emitRun]
      exact List.Pairwise.cons (fun x hx => emitRun_gt n (c + 1) x hx) (ih (c + 1))
  have hfst : ∀ (es : List (Option ℤ)) (last : ℤ), last ≤ (pollRun last es).1 := by
    intro es
    induction es with
    | nil => intro last; simp [pollRun]
    | cons e es ih =>
      intro last
      cases e with
      | none => simpa [pollRun] using ih last
      | some ts =>
        by_cases h : last < ts
        · rw [pollRun, if_pos h]
          exact le_trans h.le (ih ts)
        · rw [pollRun, if_neg h]
          exact ih last
  have hpair : ∀ (es : List (Option ℤ)) (last : ℤ),
      ((pollRun last es).2).Pairwise (· < ·) := by
    intro es
    induction es with
    | nil => intro last; simp [pollRun]
    | cons e es ih =>
      intro last
      cases e with
      | none => simpa [pollRun] using ih last
      | some ts =>
        by_cases h : last < ts
        · rw [pollRun, if_pos h]
          exact List.Pairwise.cons (fun x hx => pollRun_notified_gt es ts x hx) (ih ts)
        · rw [pollRun, if_neg h]
          exact ih last
  refine ⟨fun c n => hemit n c, fun last es => hfst es last,
    fun last es => hpair es last, ?_⟩
  intro last es t
  have hnd : ((pollRun last es).2).Nodup :=
    (hpair es last).imp (fun hab => ne_of_lt hab)
  exact List.nodup_iff_count_le_one.mp hnd t

/-- C8 counterexample: a non-empty balance string parsing to NaN passes
`validateForm` — both `!str` and `parseFloat(str) <= 0` are false for it — so
Calculate is invoked although the parsed balance satisfies no domain
constraint, refuting the claim that every malformed field is rejected. -/
theorem form_validation_nan_counterexample :
    validateForm (some "XAUUSD") nanForm = true
    ∧ handleSubmit (some "XAUUSD") nanForm = some nanForm
    ∧ nanForm.account_balance.truthy = true
    ∧ nanForm.account_balance.parsed = none := by
  refine ⟨?_, ?_, rfl, rfl⟩ <;>
    norm_num [validateForm, handleSubmit, nanForm,
      FieldVal.truthy, FieldVal.le0, FieldVal.gt100]

/-- The `parseFloat(x) <= 0` check fails (no error) exactly when any parsed
numeric value is positive; a NaN parse passes the check. -/
theorem le0_false_iff (x : FieldVal) :
    x.le0 = false ↔ ∀ v, x.parsed = some v → 0 < v := by
  cases x <;> simp [FieldVal.le0, FieldVal.parsed, not_le]

/-- The `parseFloat(x) > 100` check fails (no error) exactly when any parsed
numeric value is at most 100; a NaN parse passes the check. -/
theorem gt100_false_iff (x : FieldVal) :
    x.gt100 = false ↔ ∀ v, x.parsed = some v → v ≤ 100 := by
  cases x <;> simp [FieldVal.gt100, FieldVal.parsed, not_lt]

/-- Splitting a conjunction under the parsed-value quantifier. -/
theorem parsed_forall_and (x : FieldVal) :
    (∀ v, x.parsed = some v → 0 < v ∧ v ≤ 100)
      ↔ ((∀ v, x.parsed = some v → 0 < v) ∧ (∀ v, x.parsed = some v → v ≤ 100)) :=
  ⟨fun h => ⟨fun v hv => (h v hv).1, fun v hv => (h v hv).2⟩,
   fun h v hv => ⟨h.1 v hv, h.2 v hv⟩⟩

/-- C8 (amended): Calculate is invoked exactly when `validateForm` passes,
and `validateForm` passes exactly when a symbol is selected, every field is
a non-empty string, and every field value that parses to a number satisfies
its domain (balance > 0, risk ∈ (0,100], entry > 0, stop > 0, pip value
> 0); a non-empty value whose parse is NaN is not rejected. -/
theorem form_validation_characterization (activeSymbol : Option String)
    (f : FormState) :
    (handleSubmit activeSymbol f = some f ↔ validateForm activeSymbol f = true)
    ∧ (validateForm activeSymbol f = true ↔
        (activeSymbol.isSome = true
         ∧ f.account_balance.truthy = true
         ∧ f.risk_percent.truthy = true
         ∧ f.entry_price.truthy = true
         ∧ f.stop_pips.truthy = true
         ∧ f.pip_value_per_1_lot.truthy = true
         ∧ (∀ v, f.account_balance.parsed = some v → 0 < v)
         ∧ (∀ v, f.risk_percent.parsed = some v → 0 < v ∧ v ≤ 100)
         ∧ (∀ v, f.entry_price.parsed = some v → 0 < v)
         ∧ (∀ v, f.stop_pips.parsed = some v → 0 < v)
         ∧ (∀ v, f.pip_value_per_1_lot.parsed = some v → 0 < v))) := by
  constructor
  · by_cases hv : validateForm activeSymbol f = true
    · simp [handleSubmit, hv]
    · simp [handleSubmit, hv]
  · rw [validateForm]
    simp only [Bool.not_eq_true', Bool.not_eq_false', Bool.or_eq_false_iff,
      le0_false_iff, gt100_false_iff, parsed_forall_and]
    cases activeSymbol <;> simp <;> tauto

/-- C8 witness: a fully well-formed form passes validation and reaches
Calculate. -/
theorem form_validation_characterization_witness :
    validateForm (some "XAUUSD") goodForm = true
    ∧ handleSubmit (some "XAUUSD") goodForm = some goodForm := by
  have h := form_validation_characterization (some "XAUUSD") goodForm
  have hv : validateForm (some "XAUUSD") goodForm = true := by
    refine h.2.mpr ⟨rfl, rfl, rfl, rfl, rfl, rfl, ?_, ?_, ?_, ?_, ?_⟩ <;>
    · intro v hv
      simp only [goodForm, FieldVal.parsed, Option.some.injEq] at hv
      subst hv
      norm_num
  exact ⟨hv, h.1.mpr hv⟩

/-- C10: every order request submitted by the UI execute handler has
`tp_price = null`; `price = null` exactly for a market order and
`price = entry` for a pending order; `sl_price = entry − stop·pip` for a buy
and `entry + stop·pip` for a sell, so for positive stop distance and pip
size the stop-loss lies on the losing side of the entry price. -/
theorem handleExecute_request_shape (presets : List SymbolPreset)
    (symbol : String) (dir : Direction) (volume entry stop : ℚ)
    (pending : Bool) (req : OrderRequest)
    (h : handleExecute presets symbol dir volume entry stop pending true = some req) :
    req.tp_price = none
    ∧ req.price = (if pending then some entry else none)
    ∧ (req.price = none ↔ pending = false)
    ∧ req.sl_price
        = (if dir = .buy then entry - stop * effectivePipSize presets symbol
            else entry + stop * effectivePipSize presets symbol)
    ∧ (0 < stop → 0 < effectivePipSize presets symbol →
        (dir = .buy → req.sl_price < entry) ∧ (dir = .sell → entry < req.sl_price)) := by
  rw [handleExecute] at h
  simp only [Bool.not_true, Bool.false_eq_true, if_false, Option.some.injEq] at h
  subst h
  refine ⟨rfl, rfl, ?_, rfl, ?_⟩
  · cases pending <;> simp
  · intro hstop hpip
    have hprod : 0 < stop * effectivePipSize presets symbol := mul_pos hstop hpip
    constructor
    · intro hdir
      simp only [hdir, if_pos]
      linarith
    · intro hdir
      subst hdir
      simp only [reduceCtorEq, if_false]
      linarith

/-- C10 witness: a concrete armed market-buy submission has no take-profit,
a null price, and a stop-loss strictly below the entry. -/
theorem handleExecute_request_shape_witness :
    (handleExecute [] "EURUSD" .buy 1 (11/10) 50 false true
      = some { symbol := "EURUSD", direction := .buy, volume := 1, price := none,
               sl_price := 11/10 - 50 * (1/10000), tp_price := none, ui_armed := true })
    ∧ ({ symbol := "EURUSD", direction := .buy, volume := 1, price := none,
         sl_price := 11/10 - 50 * (1/10000), tp_price := none,
         ui_armed := true } : OrderRequest).sl_price < 11/10 := by
  have hreq : handleExecute [] "EURUSD" .buy 1 (11/10) 50 false true
      = some { symbol := "EURUSD", direction := .buy, volume := 1, price := none,
               sl_price := 11/10 - 50 * (1/10000), tp_price := none, ui_armed := true } := by
    norm_num [handleExecute, effectivePipSize, List.find?]
  refine ⟨hreq, ?_⟩
  have h := handleExecute_request_shape [] "EURUSD" .buy 1 (11/10) 50 false _ hreq
  have hsl := (h.2.2.2.2 (by norm_num) (by norm_num [effectivePipSize, List.find?])).1 rfl
  exact hsl

end POITracker
